import Mathlib

/-!
Verification of the ED (emergency department) discrete-event simulation
exercise solution.  The domain code (configuration, patient journey,
warm-up filtering, result storage, trial statistics) is embedded from
the Python source `exercise_1_solution.py`; the simulation engine that
the source delegates to an external library (event queue, resource
pools, run loop) is modelled from the design document, which describes
it in detail.  Simulated times and sampled durations are rationals;
file contents are explicit row lists.
-/

namespace EDSim

/-- The four service stations, in the order of the source's SERVICES list. -/
inductive Service
  | Registration
  | Triage
  | ED_Assessment
  | ACU_Assessment
deriving DecidableEq, Repr

/-- SERVICES list from the source (module-level constant). -/
def SERVICES : List Service :=
  [Service.Registration, Service.Triage, Service.ED_Assessment, Service.ACU_Assessment]

/-- The percentile reported by the statistics step (module-level constant). -/
def PERCENTILE : ℚ := 90

/-- Global parameter values: class g of the source.  Capacities and run
counts are integers so that invalid (non-positive) configurations are
expressible; times, means and probabilities are rationals. -/
structure Config where
  ed_inter : ℚ
  mean_register : ℚ
  mean_triage : ℚ
  mean_ed_assess : ℚ
  mean_acu_assess : ℚ
  prob_acu : ℚ
  number_of_receptionists : ℤ
  number_of_nurses : ℤ
  number_of_ed_doctors : ℤ
  number_of_acu_doctors : ℤ
  sim_duration : ℚ
  warm_up_duration : ℚ
  number_of_runs : ℤ
deriving DecidableEq, Repr

/-- The concrete values stored in class g of the source. -/
def g : Config :=
  { ed_inter := 8
    mean_register := 2
    mean_triage := 5
    mean_ed_assess := 30
    mean_acu_assess := 60
    prob_acu := 1/5
    number_of_receptionists := 1
    number_of_nurses := 2
    number_of_ed_doctors := 2
    number_of_acu_doctors := 1
    sim_duration := 2880
    warm_up_duration := 1440
    number_of_runs := 100 }

/-- The staffing list built in ED_Model.__init__ (capacities, in SERVICES
order). -/
def staffing (cfg : Config) : List ℤ :=
  [cfg.number_of_receptionists, cfg.number_of_nurses,
   cfg.number_of_ed_doctors, cfg.number_of_acu_doctors]

/-- The service_times dict built in ED_Model.__init__: SERVICES zipped with
the mean service times. -/
def service_times (cfg : Config) : Service → ℚ
  | Service.Registration => cfg.mean_register
  | Service.Triage => cfg.mean_triage
  | Service.ED_Assessment => cfg.mean_ed_assess
  | Service.ACU_Assessment => cfg.mean_acu_assess

/-- ED_Model.is_warming_up, translated literally from the source: it
returns the truth value of `env.now > g.warm_up_duration`. -/
def is_warming_up (cfg : Config) (now : ℚ) : Bool :=
  decide (now > cfg.warm_up_duration)

/-- The recording decision at the end of ed_patient_journey, translated
literally: the patient's queue_times row is appended to the run's
results exactly when `not is_warming_up` holds at completion. -/
def records_observation (cfg : Config) (now : ℚ) : Bool :=
  ! is_warming_up cfg now

/-- C1: the code records a completed journey exactly when completion time
is at most the warm-up cutoff, the opposite of the specified filter.  At
completion time 1441 (one time-unit past the cutoff 1440) the spec says
the observation must be emitted, but the code discards it; at completion
time exactly 1440 the spec says discard, but the code records it.  The
property is_warming_up returns True precisely when the warm-up is over,
contradicting its own name, and the journey records on its negation. -/
theorem c1_warm_up_filter_inverted :
    records_observation g 1441 = false ∧ (1441 : ℚ) > g.warm_up_duration ∧
    records_observation g 1440 = true ∧ ¬ ((1440 : ℚ) > g.warm_up_duration) := by
  refine ⟨?_, ?_, ?_, ?_⟩ <;> norm_num [records_observation, is_warming_up, g]

/-!
Clock and event queue.  Modelled from the spec: the event scheduler is
provided by the external simulation library and is not part of the
source tree; the design document specifies it as a container of pending
events ordered by the pair (due_time, insertion sequence), with
schedule inserting at the ordered position using the next monotonically
increasing sequence number and advance popping the earliest event.
-/

/-- Modelled from the spec: a pending event of the clock's queue, with
its due time and its insertion sequence number.  The continuation is
irrelevant to the ordering claims and is omitted. -/
structure Event where
  due : ℚ
  seq : ℕ
deriving DecidableEq, Repr

/-- Event ordering: (due_time, sequence) lexicographically. -/
def eventLE (a b : Event) : Prop :=
  a.due < b.due ∨ (a.due = b.due ∧ a.seq ≤ b.seq)

instance : DecidableRel eventLE := fun a b => by
  unfold eventLE; infer_instance

instance : IsTotal Event eventLE where
  total a b := by
    rcases lt_trichotomy a.due b.due with h | h | h
    · exact Or.inl (Or.inl h)
    · rcases Nat.le_total a.seq b.seq with hs | hs
      · exact Or.inl (Or.inr ⟨h, hs⟩)
      · exact Or.inr (Or.inr ⟨h.symm, hs⟩)
    · exact Or.inr (Or.inl h)

instance : IsTrans Event eventLE where
  trans a b c hab hbc := by
    rcases hab with h1 | ⟨h1, s1⟩
    · rcases hbc with h2 | ⟨h2, _⟩
      · exact Or.inl (h1.trans h2)
      · exact Or.inl (h2 ▸ h1)
    · rcases hbc with h2 | ⟨h2, s2⟩
      · exact Or.inl (h1 ▸ h2)
      · exact Or.inr ⟨h1.trans h2, s1.trans s2⟩

/-- Modelled from the spec: schedule inserts an event into the pending
queue at its ordered position under the (due_time, sequence) key. -/
def schedule (q : List Event) (e : Event) : List Event :=
  q.orderedInsert eventLE e

/-- Modelled from the spec: schedule a list of due times in arrival
order, assigning each the next monotonically increasing sequence
number, starting from sequence number n into queue q. -/
def scheduleFrom (n : ℕ) (q : List Event) : List ℚ → List Event
  | [] => q
  | d :: ds => scheduleFrom (n + 1) (schedule q ⟨d, n⟩) ds

/-- Modelled from the spec: the firing order of a run with no further
rescheduling is the pending queue itself, since advance repeatedly pops
the earliest-ordered event, i.e. the head of the ordered container. -/
def fireOrder (ds : List ℚ) : List Event :=
  scheduleFrom 0 [] ds

lemma sorted_schedule {q : List Event} (h : q.Sorted eventLE) (e : Event) :
    (schedule q e).Sorted eventLE :=
  h.orderedInsert e q

lemma sorted_scheduleFrom (n : ℕ) (q : List Event) (ds : List ℚ)
    (h : q.Sorted eventLE) : (scheduleFrom n q ds).Sorted eventLE := by
  induction ds generalizing n q with
  | nil => exact h
  | cons d ds ih => exact ih (n + 1) _ (sorted_schedule h _)

/-- The events created when scheduling due times ds with consecutive
sequence numbers starting at n, in arrival order. -/
def eventsOf : ℕ → List ℚ → List Event
  | _, [] => []
  | n, d :: ds => ⟨d, n⟩ :: eventsOf (n + 1) ds

lemma perm_scheduleFrom (n : ℕ) (q : List Event) (ds : List ℚ) :
    List.Perm (scheduleFrom n q ds) (q ++ eventsOf n ds) := by
  induction ds generalizing n q with
  | nil => simp [scheduleFrom, eventsOf]
  | cons d ds ih =>
    have h1 : List.Perm (schedule q ⟨d, n⟩) (⟨d, n⟩ :: q) :=
      List.perm_orderedInsert _ _ _
    refine (ih (n + 1) (schedule q ⟨d, n⟩)).trans ?_
    exact (h1.append_right _).trans List.perm_middle.symm

/-- C3: within one run the clock never decreases and event ordering is
deterministic.  For every arrival-ordered list of due times: (i) the
firing order is pairwise ordered under the (due_time, sequence) key;
(ii) consequently along the firing order due times never decrease, and
two events due at the same instant fire in insertion-sequence
(scheduling) order; (iii) the fired events are exactly the scheduled
ones, each due time paired with its scheduling index as sequence
number; (iv) rerunning on equal input yields an identical firing order
(determinism). -/
theorem c3_clock_ordering (ds : List ℚ) :
    (fireOrder ds).Pairwise eventLE ∧
    (∀ i j : ℕ, (hi : i < (fireOrder ds).length) →
      (hj : j < (fireOrder ds).length) → i < j →
      ((fireOrder ds).get ⟨i, hi⟩).due ≤ ((fireOrder ds).get ⟨j, hj⟩).due ∧
      (((fireOrder ds).get ⟨i, hi⟩).due = ((fireOrder ds).get ⟨j, hj⟩).due →
        ((fireOrder ds).get ⟨i, hi⟩).seq ≤ ((fireOrder ds).get ⟨j, hj⟩).seq)) ∧
    List.Perm (fireOrder ds) (eventsOf 0 ds) ∧
    (∀ ds2 : List ℚ, ds2 = ds → fireOrder ds2 = fireOrder ds) := by
  have hsorted : (fireOrder ds).Sorted eventLE :=
    sorted_scheduleFrom 0 [] ds List.sorted_nil
  refine ⟨hsorted, ?_, ?_, fun ds2 h => h ▸ rfl⟩
  · intro i j hi hj hij
    have hle : eventLE ((fireOrder ds).get ⟨i, hi⟩) ((fireOrder ds).get ⟨j, hj⟩) :=
      List.Sorted.rel_get_of_lt hsorted hij
    rcases hle with h | ⟨h, hs⟩
    · exact ⟨le_of_lt h, fun he => absurd he (ne_of_lt h)⟩
    · exact ⟨le_of_eq h, fun _ => hs⟩
  · simpa using perm_scheduleFrom 0 [] ds

/-!
Run loop.  Modelled from the spec: ED_Model.run calls the library's
run-until with `g.sim_duration + g.warm_up_duration`; the design
document specifies that the loop repeatedly pops the earliest pending
event while its due time is at most the horizon, terminates when the
next pending event's due time exceeds it, and discards unfired events.
-/

/-- The horizon passed by ED_Model.run: sim_duration plus
warm_up_duration (the measurement window after the warm-up). -/
def run_horizon (cfg : Config) : ℚ :=
  cfg.sim_duration + cfg.warm_up_duration

/-- Modelled from the spec: run_until pops (fires) the head of the
ordered pending queue while its due time is at most the horizon, and
stops at the first pending event due strictly later, leaving the rest
of the queue unfired.  Returns (fired events, discarded events). -/
def run_until (horizon : ℚ) : List Event → List Event × List Event
  | [] => ([], [])
  | e :: q =>
    if e.due ≤ horizon then
      let rest := run_until horizon q
      (e :: rest.1, rest.2)
    else ([], e :: q)

lemma run_until_of_sorted (horizon : ℚ) (q : List Event)
    (h : q.Sorted eventLE) :
    run_until horizon q =
      (q.filter (fun e => e.due ≤ horizon),
       q.filter (fun e => horizon < e.due)) := by
  induction q with
  | nil => simp [run_until]
  | cons e q ih =>
    rcases List.sorted_cons.mp h with ⟨he, hq⟩
    by_cases hd : e.due ≤ horizon
    · simp [run_until, hd, ih hq, List.filter_cons, not_lt.mpr hd]
    · have hall : ∀ a ∈ q, ¬ a.due ≤ horizon := by
        intro a ha hc
        rcases he a ha with h1 | ⟨h1, _⟩
        · exact hd ((le_of_lt h1).trans hc)
        · exact hd (h1 ▸ hc)
      have hq1 : q.filter (fun a => a.due ≤ horizon) = [] := by
        refine List.filter_eq_nil_iff.mpr fun a ha => by simpa using hall a ha
      have hq2 : q.filter (fun a => horizon < a.due) = q := by
        refine List.filter_eq_self.mpr fun a ha => by
          simpa using not_le.mp (hall a ha)
      have hlt : horizon < e.due := not_le.mp hd
      simp [run_until, hd, hlt, List.filter_cons, hq1, hq2]

/-- C7: a run fires exactly the pending events whose due time is at
most the horizon sim_duration + warm_up_duration, in queue order, and
discards exactly those due strictly later.  The hypothesis is the
queue's standing invariant: pending events are kept ordered by the
(due_time, sequence) key. -/
theorem c7_run_fires_upto_horizon (cfg : Config) (q : List Event)
    (h : q.Sorted eventLE) :
    (run_until (run_horizon cfg) q).1 =
      q.filter (fun e => e.due ≤ run_horizon cfg) ∧
    (run_until (run_horizon cfg) q).2 =
      q.filter (fun e => run_horizon cfg < e.due) := by
  rw [run_until_of_sorted _ _ h]
  exact ⟨rfl, rfl⟩

/-- Witness for C7: a concrete sorted queue around the default horizon
4320 = 2880 + 1440, with events due at 100 and 4320 (fired) and at 4321
and 5000 (discarded). -/
theorem c7_witness :
    ([⟨100, 0⟩, ⟨4320, 1⟩, ⟨4321, 2⟩, ⟨5000, 3⟩] : List Event).Sorted eventLE ∧
    ((run_until (run_horizon g)
        [⟨100, 0⟩, ⟨4320, 1⟩, ⟨4321, 2⟩, ⟨5000, 3⟩]).1 =
      ([⟨100, 0⟩, ⟨4320, 1⟩, ⟨4321, 2⟩, ⟨5000, 3⟩] : List Event).filter
        (fun e => e.due ≤ run_horizon g) ∧
     (run_until (run_horizon g)
        [⟨100, 0⟩, ⟨4320, 1⟩, ⟨4321, 2⟩, ⟨5000, 3⟩]).2 =
      ([⟨100, 0⟩, ⟨4320, 1⟩, ⟨4321, 2⟩, ⟨5000, 3⟩] : List Event).filter
        (fun e => run_horizon g < e.due)) := by
  have hs : ([⟨100, 0⟩, ⟨4320, 1⟩, ⟨4321, 2⟩, ⟨5000, 3⟩] : List Event).Sorted eventLE := by
    norm_num [List.sorted_cons, eventLE]
  exact ⟨hs, c7_run_fires_upto_horizon g _ hs⟩

/-!
Resource pools.  Modelled from the spec: the capacity-limited FIFO
resource is provided by the external simulation library; the design
document specifies request (grant immediately when a slot is free,
otherwise append to the FIFO wait queue and suspend) and release
(free the slot and, when the wait queue is non-empty, grant its head).
The pool additionally logs arrivals and grants so that FIFO fairness
is expressible.
-/

/-- Modelled from the spec: one resource pool's state.  requestLog and
grantLog are histories (request ids in arrival order and in grant
order) recorded for the fairness statement; in_use counts held slots. -/
structure Pool where
  capacity : ℕ
  in_use : ℕ
  wait_queue : List ℕ
  requestLog : List ℕ
  grantLog : List ℕ
deriving DecidableEq, Repr

/-- A fresh pool of the given capacity. -/
def Pool.init (c : ℕ) : Pool :=
  { capacity := c, in_use := 0, wait_queue := [], requestLog := [], grantLog := [] }

/-- The pool operations a run can perform: a process requests a slot
(identified by its arrival id) or releases a held slot. -/
inductive PoolOp
  | request (id : ℕ)
  | release
deriving DecidableEq, Repr

/-- Modelled from the spec: request grants immediately when in_use is
below capacity, otherwise appends the request to the FIFO wait queue;
release frees a slot and grants the head of the wait queue when one is
waiting.  Releasing with no slot held is a fatal programming error,
modelled as none. -/
def Pool.step (p : Pool) : PoolOp → Option Pool
  | PoolOp.request i =>
    if p.in_use < p.capacity then
      some { p with in_use := p.in_use + 1,
                    requestLog := p.requestLog ++ [i],
                    grantLog := p.grantLog ++ [i] }
    else
      some { p with wait_queue := p.wait_queue ++ [i],
                    requestLog := p.requestLog ++ [i] }
  | PoolOp.release =>
    if p.in_use = 0 then none
    else
      match p.wait_queue with
      | [] => some { p with in_use := p.in_use - 1 }
      | w :: ws =>
        some { p with wait_queue := ws, grantLog := p.grantLog ++ [w] }

/-- Run a sequence of pool operations from a state, failing if any
single operation is a fatal error. -/
def Pool.runOps (p : Pool) : List PoolOp → Option Pool
  | [] => some p
  | op :: ops =>
    match p.step op with
    | none => none
    | some p2 => Pool.runOps p2 ops

/-- The pool invariant: capacity is preserved, in_use stays within
capacity, the pool is full whenever someone is waiting, and the grant
log followed by the wait queue is exactly the request log in arrival
order (hence grants are handed out in strict arrival order and every
waiter is behind every grantee). -/
def Pool.inv (c : ℕ) (p : Pool) : Prop :=
  p.capacity = c ∧ p.in_use ≤ c ∧
  (p.wait_queue ≠ [] → p.in_use = c) ∧
  p.grantLog ++ p.wait_queue = p.requestLog

lemma Pool.step_inv {c : ℕ} {p p2 : Pool} (h : Pool.inv c p) (op : PoolOp)
    (hs : p.step op = some p2) : Pool.inv c p2 := by
  obtain ⟨hc, hu, hfull, hl⟩ := h
  cases op with
  | request i =>
    by_cases hlt : p.in_use < p.capacity
    · simp only [Pool.step, if_pos hlt] at hs
      cases hs
      have hwq : p.wait_queue = [] := by
        by_contra hne
        rw [hfull hne, ← hc] at hlt
        exact lt_irrefl _ hlt
      refine ⟨hc, ?_, ?_, ?_⟩
      · dsimp only; omega
      · dsimp only; intro hne; exact absurd hwq hne
      · dsimp only
        rw [hwq] at hl ⊢
        simp only [List.append_nil] at hl ⊢
        rw [hl]
    · simp only [Pool.step, if_neg hlt] at hs
      cases hs
      have hfull2 : p.in_use = c := by omega
      refine ⟨hc, hu, fun _ => hfull2, ?_⟩
      dsimp only
      rw [← List.append_assoc, hl]
  | release =>
    by_cases hz : p.in_use = 0
    · simp [Pool.step, hz] at hs
    · cases hw : p.wait_queue with
      | nil =>
        simp only [Pool.step, if_neg hz, hw] at hs
        cases hs
        refine ⟨hc, by dsimp only; omega, ?_, ?_⟩
        · dsimp only; intro hne; exact absurd rfl hne
        · dsimp only; rw [hw] at hl; simpa using hl
      | cons w ws =>
        simp only [Pool.step, if_neg hz, hw] at hs
        cases hs
        have hfull2 : p.in_use = c := hfull (by rw [hw]; simp)
        refine ⟨hc, hu, fun _ => hfull2, ?_⟩
        dsimp only
        rw [← hl, hw]
        simp

lemma Pool.runOps_inv {c : ℕ} {p p2 : Pool} (h : Pool.inv c p)
    (ops : List PoolOp) (hs : p.runOps ops = some p2) : Pool.inv c p2 := by
  induction ops generalizing p with
  | nil => simp only [Pool.runOps] at hs; cases hs; exact h
  | cons op ops ih =>
    simp only [Pool.runOps] at hs
    cases hstep : p.step op with
    | none => rw [hstep] at hs; cases hs
    | some q => rw [hstep] at hs; exact ih (Pool.step_inv h op hstep) hs

lemma Pool.init_inv (c : ℕ) : Pool.inv c (Pool.init c) := by
  refine ⟨rfl, ?_, ?_, rfl⟩ <;> simp [Pool.init]

/-- C2: for a pool of configured capacity c, in every state reachable
by a sequence of request/release operations from the fresh pool, the
number of slots in use satisfies 0 ≤ in_use ≤ c, and grants are handed
out in strict FIFO arrival order: the grant log followed by the still
waiting requests equals the arrival-ordered request log, so every
granted request arrived no later than every request granted after it,
even under a burst of simultaneous requests exceeding c. -/
theorem c2_pool_capacity_and_fifo (c : ℕ) (ops : List PoolOp) (p : Pool)
    (h : (Pool.init c).runOps ops = some p) :
    0 ≤ p.in_use ∧ p.in_use ≤ c ∧
    p.grantLog ++ p.wait_queue = p.requestLog := by
  have hinv : Pool.inv c p := Pool.runOps_inv (Pool.init_inv c) ops h
  exact ⟨Nat.zero_le _, hinv.2.1, hinv.2.2.2⟩

/-- Witness for C2: a burst of three simultaneous requests on a pool of
capacity 1 followed by one release; request 3 is still waiting, in_use
is 1, within capacity, and grants 1, 2 followed by the waiting 3 equal
the arrival order 1, 2, 3. -/
theorem c2_witness :
    (Pool.init 1).runOps
        [PoolOp.request 1, PoolOp.request 2, PoolOp.request 3, PoolOp.release] =
      some { capacity := 1, in_use := 1, wait_queue := [3],
             requestLog := [1, 2, 3], grantLog := [1, 2] } ∧
    0 ≤ (1 : ℕ) ∧ (1 : ℕ) ≤ 1 ∧
    ([1, 2] : List ℕ) ++ [3] = [1, 2, 3] := by
  have hrun : (Pool.init 1).runOps
      [PoolOp.request 1, PoolOp.request 2, PoolOp.request 3, PoolOp.release] =
      some { capacity := 1, in_use := 1, wait_queue := [3],
             requestLog := [1, 2, 3], grantLog := [1, 2] } := by
    decide
  have hmain := c2_pool_capacity_and_fifo 1
    [PoolOp.request 1, PoolOp.request 2, PoolOp.request 3, PoolOp.release]
    { capacity := 1, in_use := 1, wait_queue := [3],
      requestLog := [1, 2, 3], grantLog := [1, 2] } hrun
  exact ⟨hrun, hmain.1, hmain.2.1, hmain.2.2⟩

/-!
Observation rows, result storage and the trial statistics step,
embedded from ED_Patient.__init__, generate_ed_arrivals,
ED_Model.store_results, Trial_Results_Calculator and main.  A CSV file
is modelled as its header flag and its list of rows; a missing file is
none.  The per-service columns hold optional rationals because a row
only has entries for the services the patient visited (pandas stores
the missing ones as NaN and the quantile skips them).
-/

/-- One patient's queue_times record: the dict created in
ED_Patient.__init__ (P_ID, ED_Assessment None, ACU_Assessment None)
plus the keys added later by generate_ed_arrivals (run_number,
ArrivalTime), do_service (one per visited service) and the journey loop
(ExitTime). -/
structure QueueTimes where
  p_id : ℕ
  run_number : ℕ
  arrival_time : ℚ
  exit_time : Option ℚ
  registration : Option ℚ
  triage : Option ℚ
  ed_assessment : Option ℚ
  acu_assessment : Option ℚ
deriving DecidableEq, Repr

/-- Look up the queue-time entry recorded for a service. -/
def QueueTimes.get (r : QueueTimes) : Service → Option ℚ
  | Service.Registration => r.registration
  | Service.Triage => r.triage
  | Service.ED_Assessment => r.ed_assessment
  | Service.ACU_Assessment => r.acu_assessment

/-- Write the queue-time entry for a service (dict assignment in
do_service). -/
def QueueTimes.set (r : QueueTimes) (s : Service) (v : ℚ) : QueueTimes :=
  match s with
  | Service.Registration => { r with registration := some v }
  | Service.Triage => { r with triage := some v }
  | Service.ED_Assessment => { r with ed_assessment := some v }
  | Service.ACU_Assessment => { r with acu_assessment := some v }

/-- The queue_times dict as it stands right after generate_ed_arrivals
created the patient and stamped run_number and ArrivalTime: no service
entry and no exit time yet. -/
def initial_queue_times (p_id run_number : ℕ) (arrival_time : ℚ) : QueueTimes :=
  { p_id := p_id, run_number := run_number, arrival_time := arrival_time,
    exit_time := none, registration := none, triage := none,
    ed_assessment := none, acu_assessment := none }

/-- The results CSV modelled as its contents: whether a header row was
written, and the data rows in file order. -/
structure CsvFile where
  header : Bool
  rows : List QueueTimes
deriving DecidableEq, Repr

/-- ED_Model.store_results: append the run's rows without a header when
the file already exists, otherwise create it with a header row. -/
def store_results (queing_times : List QueueTimes) (file : Option CsvFile) :
    CsvFile :=
  match file with
  | some f => { header := f.header, rows := f.rows ++ queing_times }
  | none => { header := true, rows := queing_times }

/-- Trial_Results_Calculator.__init__: read the whole results CSV; a
missing file is a fatal error (the CSV reader raises). -/
def read_csv (file : Option CsvFile) : Except String (List QueueTimes) :=
  match file with
  | some f => Except.ok f.rows
  | none => Except.error "FileNotFoundError"

/-- A service's column of the pooled results: the rows' recorded
entries for that service, missing entries skipped (pandas NaN
handling in quantile). -/
def service_column (rows : List QueueTimes) (s : Service) : List ℚ :=
  rows.filterMap (fun r => r.get s)

/-- Modelled from the spec: the quantile of a non-empty data list by
linear interpolation between order statistics (pandas' default
interpolation), none on an empty column. -/
def pandas_quantile (xs : List ℚ) (q : ℚ) : Option ℚ :=
  match xs with
  | [] => none
  | x :: rest =>
    let s := (x :: rest).insertionSort (fun a b => a ≤ b)
    let n := s.length
    let h := q * ((n : ℚ) - 1)
    let i := (Int.floor h).toNat
    let lo := s.getD i 0
    let hi := s.getD (i + 1) lo
    some (lo + (h - (i : ℚ)) * (hi - lo))

/-- Trial_Results_Calculator.print_trial_results: for each service in
SERVICES order, the PERCENTILE-th percentile of that service's pooled
column. -/
def print_trial_results (rows : List QueueTimes) : List (Option ℚ) :=
  SERVICES.map (fun s => pandas_quantile (service_column rows s) (PERCENTILE / 100))

/-- The loop in main: for each run number in order, build a model, run
it and store its rows to the results CSV.  runRows k stands for the
rows run k records; Modelled from the spec: the random stream is an
external collaborator and each run's recorded rows are a deterministic
function of the (reset) stream and the run number, so two invocations
with the same reset stream share the same runRows. -/
def run_trial_loop (number_of_runs : ℕ) (runRows : ℕ → List QueueTimes)
    (file : Option CsvFile) : Option CsvFile :=
  (List.range number_of_runs).foldl
    (fun f k => some (store_results (runRows k) f)) file

/-- All rows recorded by one trial's runs, in run order. -/
def trialRows (number_of_runs : ℕ) (runRows : ℕ → List QueueTimes) :
    List QueueTimes :=
  (List.range number_of_runs).flatMap runRows

/-- main: run the trial loop against the results CSV, then read the
file back and report the per-service percentiles.  Returns the final
file state and the statistics outcome. -/
def main (number_of_runs : ℕ) (runRows : ℕ → List QueueTimes)
    (file : Option CsvFile) :
    Option CsvFile × Except String (List (Option ℚ)) :=
  let file2 := run_trial_loop number_of_runs runRows file
  (file2, (read_csv file2).map print_trial_results)

lemma run_trial_loop_some (number_of_runs : ℕ) (runRows : ℕ → List QueueTimes)
    (f : CsvFile) :
    run_trial_loop number_of_runs runRows (some f) =
      some { header := f.header,
             rows := f.rows ++ trialRows number_of_runs runRows } := by
  induction number_of_runs with
  | zero => simp [run_trial_loop, trialRows]
  | succ m ih =>
    unfold run_trial_loop trialRows at ih ⊢
    rw [List.range_succ]
    simp only [List.foldl_append, ih, List.foldl_cons, List.foldl_nil,
      List.flatMap_append]
    simp [store_results]

lemma run_trial_loop_none (number_of_runs : ℕ) (runRows : ℕ → List QueueTimes)
    (h : 0 < number_of_runs) :
    run_trial_loop number_of_runs runRows none =
      some { header := true, rows := trialRows number_of_runs runRows } := by
  cases number_of_runs with
  | zero => exact absurd h (by omega)
  | succ m =>
    unfold run_trial_loop
    rw [List.range_succ_eq_map]
    simp only [List.foldl_cons]
    have : store_results (runRows 0) none =
        { header := true, rows := runRows 0 } := rfl
    rw [this]
    have hfold := run_trial_loop_some m (fun k => runRows (k + 1))
      { header := true, rows := runRows 0 }
    unfold run_trial_loop at hfold
    rw [List.foldl_map]
    simpa [trialRows, List.range_succ_eq_map, List.flatMap_cons,
      List.flatMap_map] using hfold

/-- A pooled results row whose Registration column holds v and whose
other service columns are empty. -/
def sample_row (v : ℚ) : QueueTimes :=
  { initial_queue_times 0 0 0 with registration := some v }

/-- C9: for a station whose pooled observed queueing times are exactly
1..10, the reported 90th percentile under linear interpolation between
order statistics is 9.1; the full statistics step over ten such pooled
rows reports 9.1 for that station (and no data for the others). -/
theorem c9_percentile_of_1_to_10 :
    pandas_quantile [1, 2, 3, 4, 5, 6, 7, 8, 9, 10] (PERCENTILE / 100) =
      some (91/10) ∧
    print_trial_results
        [sample_row 1, sample_row 2, sample_row 3, sample_row 4, sample_row 5,
         sample_row 6, sample_row 7, sample_row 8, sample_row 9, sample_row 10] =
      [some (91/10), none, none, none] := by
  have h1 : pandas_quantile [1, 2, 3, 4, 5, 6, 7, 8, 9, 10] (PERCENTILE / 100) =
      some (91/10) := by
    norm_num [pandas_quantile, PERCENTILE, List.insertionSort, List.orderedInsert]
    norm_num [show Int.toNat 8 = 8 from rfl, List.getD]
  refine ⟨h1, ?_⟩
  have hreg : service_column
      [sample_row 1, sample_row 2, sample_row 3, sample_row 4, sample_row 5,
       sample_row 6, sample_row 7, sample_row 8, sample_row 9, sample_row 10]
      Service.Registration = [1, 2, 3, 4, 5, 6, 7, 8, 9, 10] := rfl
  simp only [print_trial_results, SERVICES, List.map_cons, List.map_nil, hreg, h1]
  rfl

/-- C5 counterexample: with number_of_runs = 0 and no pre-existing
results CSV, the loop writes nothing, so the statistics step reads a
missing file and fails (the CSV reader raises), contradicting the
claim that the program yields a well-defined no-data result instead of
crashing. -/
theorem c5_counterexample_zero_runs_crashes :
    main 0 (fun _ => []) none =
      (none, Except.error "FileNotFoundError") := rfl

/-- C5 amended: with number_of_runs = 0 the trial records no
observations and leaves the results file untouched; the statistics
step then crashes with a missing-file error when no results CSV
pre-exists, and with a pre-existing file it reports statistics over
that stale file's rows rather than a no-data result. -/
theorem c5_amended_zero_runs (runRows : ℕ → List QueueTimes) (f : CsvFile) :
    trialRows 0 runRows = [] ∧
    (main 0 runRows none).1 = none ∧
    (main 0 runRows none).2 = Except.error "FileNotFoundError" ∧
    (main 0 runRows (some f)).2 = Except.ok (print_trial_results f.rows) :=
  ⟨rfl, rfl, rfl, rfl⟩

/-- C4 counterexample: with one run recording waits 1 and 2 for
Registration and the same reset random stream, the first trial
invocation (fresh file) reports a 90th percentile of 1.9, but the
second invocation appends to the file left by the first and reports 2
over the duplicated rows, so the two percentile outputs are not
identical. -/
theorem c4_counterexample_second_trial_differs :
    (main 1 (fun _ => [sample_row 1, sample_row 2]) none).2 =
      Except.ok [some (19/10), none, none, none] ∧
    (main 1 (fun _ => [sample_row 1, sample_row 2])
        (main 1 (fun _ => [sample_row 1, sample_row 2]) none).1).2 =
      Except.ok [some 2, none, none, none] ∧
    ([some ((19:ℚ)/10), none, none, none] : List (Option ℚ)) ≠
      [some 2, none, none, none] := by
  have hq1 : pandas_quantile [1, 2] (PERCENTILE / 100) = some (19/10) := by
    norm_num [pandas_quantile, PERCENTILE, List.insertionSort, List.orderedInsert]
  have hq2 : pandas_quantile [1, 2, 1, 2] (PERCENTILE / 100) = some 2 := by
    norm_num [pandas_quantile, PERCENTILE, List.insertionSort, List.orderedInsert]
    norm_num [show Int.toNat 2 = 2 from rfl, List.getD]
  refine ⟨?_, ?_, by norm_num⟩
  · have e1 : (main 1 (fun _ => [sample_row 1, sample_row 2]) none).2 =
        Except.ok (print_trial_results [sample_row 1, sample_row 2]) := rfl
    rw [e1]
    have hreg : service_column [sample_row 1, sample_row 2]
        Service.Registration = [1, 2] := rfl
    simp only [print_trial_results, SERVICES, List.map_cons, List.map_nil,
      hreg, hq1]
    rfl
  · have e2 : (main 1 (fun _ => [sample_row 1, sample_row 2])
        (main 1 (fun _ => [sample_row 1, sample_row 2]) none).1).2 =
        Except.ok (print_trial_results
          [sample_row 1, sample_row 2, sample_row 1, sample_row 2]) := rfl
    rw [e2]
    have hreg : service_column
        [sample_row 1, sample_row 2, sample_row 1, sample_row 2]
        Service.Registration = [1, 2, 1, 2] := rfl
    simp only [print_trial_results, SERVICES, List.map_cons, List.map_nil,
      hreg, hq2]
    rfl

/-- C4 amended: with the same configuration and the same reset random
stream (so the same per-run recorded rows), the first invocation
starting from an absent results CSV reports percentiles over the
trial's pooled rows, while a second invocation run against the file
the first left behind reports percentiles over those rows duplicated
(both invocations' rows); the outputs are bit-identical only when the
pooled quantiles of the single and duplicated rows coincide, e.g. when
the results CSV is removed between the invocations. -/
theorem c4_amended_second_trial_pools_both (n : ℕ)
    (runRows : ℕ → List QueueTimes) (h : 0 < n) :
    (main n runRows none).2 =
      Except.ok (print_trial_results (trialRows n runRows)) ∧
    (main n runRows (main n runRows none).1).2 =
      Except.ok (print_trial_results
        (trialRows n runRows ++ trialRows n runRows)) := by
  have h1 := run_trial_loop_none n runRows h
  constructor
  · show (read_csv (run_trial_loop n runRows none)).map print_trial_results = _
    rw [h1]
    rfl
  · show (read_csv (run_trial_loop n runRows
      (run_trial_loop n runRows none))).map print_trial_results = _
    rw [h1, run_trial_loop_some]
    rfl

/-- Witness for C4's amended theorem at one run recording two rows. -/
theorem c4_amended_witness :
    0 < 1 ∧
    ((main 1 (fun _ => [sample_row 1, sample_row 2]) none).2 =
      Except.ok (print_trial_results
        (trialRows 1 (fun _ => [sample_row 1, sample_row 2]))) ∧
    (main 1 (fun _ => [sample_row 1, sample_row 2])
        (main 1 (fun _ => [sample_row 1, sample_row 2]) none).1).2 =
      Except.ok (print_trial_results
        (trialRows 1 (fun _ => [sample_row 1, sample_row 2]) ++
         trialRows 1 (fun _ => [sample_row 1, sample_row 2])))) :=
  ⟨Nat.one_pos,
   c4_amended_second_trial_pools_both 1 (fun _ => [sample_row 1, sample_row 2])
     Nat.one_pos⟩

/-- C10: store_results appends the run's rows after the file's
existing rows when the results CSV already exists, leaving every
previously written row unchanged and writing no second header, and
writes a header only when creating the file; consequently the trial
statistics step reads back and pools every row in the file, including
rows written by earlier invocations that used the same file. -/
theorem c10_append_semantics_and_pooling (f : CsvFile)
    (rows : List QueueTimes) (n : ℕ) (runRows : ℕ → List QueueTimes) :
    store_results rows (some f) =
      { header := f.header, rows := f.rows ++ rows } ∧
    store_results rows none = { header := true, rows := rows } ∧
    (main n runRows (some f)).1 =
      some { header := f.header, rows := f.rows ++ trialRows n runRows } ∧
    (main n runRows (some f)).2 =
      Except.ok (print_trial_results (f.rows ++ trialRows n runRows)) := by
  refine ⟨rfl, rfl, ?_, ?_⟩
  · show run_trial_loop n runRows (some f) = _
    exact run_trial_loop_some n runRows f
  · show (read_csv (run_trial_loop n runRows (some f))).map
      print_trial_results = _
    rw [run_trial_loop_some]
    rfl

/-!
The patient journey, embedded from ED_Patient.__init__,
ED_Model.do_service and ED_Model.ed_patient_journey.  The engine's
arbitration (how long a request waits before the pool grants it) and
the random sampler are external inputs of the journey code, so they
are oracle parameters; everything else is translated from the source.
-/

/-- The external random-variate capability: expovariate lam returns an
exponentially distributed sample at rate lam (mean 1/lam).  The
journey claims concern which rate the code passes, so the sampler is
an oracle parameter. -/
structure Rng where
  expovariate : ℚ → ℚ

/-- An ED patient: id and the ACU branch flag drawn once at creation
(random.uniform(0,1) < prob_acu), with the queue_times record. -/
structure ED_Patient where
  id : ℕ
  is_acu_patient : Bool
  queue_times : QueueTimes
deriving DecidableEq, Repr

/-- One completed service visit, as the timestamped trace of
do_service: request instant, grant instant (the engine's FIFO
arbitration decides the wait), sampled hold duration, and the release
instant produced by leaving the with-block. -/
structure Visit where
  service : Service
  requestTime : ℚ
  grantTime : ℚ
  duration : ℚ
  releaseTime : ℚ
deriving DecidableEq, Repr

/-- ED_Model.do_service, translated from the source: note the entry
clock value as start_q_reg, request the service's pool (the wait until
the grant is the engine's arbitration, an oracle input), record
env.now - start_q_reg as the patient's queueing time for this service,
sample expovariate(1 / mean_service_time) for the service duration,
hold until it elapses, and release on exiting the with-block.
Returns the new clock value, the updated record and the visit trace. -/
def do_service (cfg : Config) (rng : Rng) (service : Service) (wait : ℚ)
    (now : ℚ) (patient : QueueTimes) : ℚ × QueueTimes × Visit :=
  let start_q_reg := now
  let grantTime := now + wait
  let q_time := grantTime - start_q_reg
  let patient2 := patient.set service q_time
  let mean_service_time := service_times cfg service
  let sampled_reg_duration := rng.expovariate (1 / mean_service_time)
  (grantTime + sampled_reg_duration, patient2,
   { service := service, requestTime := start_q_reg, grantTime := grantTime,
     duration := sampled_reg_duration,
     releaseTime := grantTime + sampled_reg_duration })

/-- The station list walked by ed_patient_journey: the first two
SERVICES entries followed by the branch-dependent treatment. -/
def process_services (patient : ED_Patient) : List Service :=
  let treatment := if patient.is_acu_patient then Service.ACU_Assessment
                   else Service.ED_Assessment
  SERVICES.take 2 ++ [treatment]

/-- The for-loop body of ed_patient_journey: visit each station in
order via do_service, stamping ExitTime with the clock value after
every visit (so its final value is the journey completion time). -/
def journey_loop (cfg : Config) (rng : Rng) (wait : Service → ℚ) :
    List Service → ℚ → QueueTimes → ℚ × QueueTimes × List Visit
  | [], now, qt => (now, qt, [])
  | s :: rest, now, qt =>
    let r := do_service cfg rng s (wait s) now qt
    let qt2 := { r.2.1 with exit_time := some r.1 }
    let k := journey_loop cfg rng wait rest r.1 qt2
    (k.1, k.2.1, r.2.2 :: k.2.2)

/-- ED_Model.ed_patient_journey, translated from the source: walk
process_services in order from the journey's start time. -/
def ed_patient_journey (cfg : Config) (rng : Rng) (wait : Service → ℚ)
    (now : ℚ) (patient : ED_Patient) : ℚ × QueueTimes × List Visit :=
  journey_loop cfg rng wait (process_services patient) now patient.queue_times

/-- C6: for every patient the journey visits Registration, then
Triage, then exactly one of ED_Assessment (branch flag false) or
ACU_Assessment (branch flag true), in that order, visits chained so
that each request is issued the instant the previous station is
released, starting at the journey's start time; at each station the
recorded queue_times entry equals grant time minus request time, the
held duration is the sample drawn at rate 1/mean for that station's
configured mean, and the resource is released at grant time plus held
duration on every visit. -/
theorem c6_journey_structure (cfg : Config) (rng : Rng) (wait : Service → ℚ)
    (now : ℚ) (patient : ED_Patient) :
    ((ed_patient_journey cfg rng wait now patient).2.2.map Visit.service =
      [Service.Registration, Service.Triage,
       if patient.is_acu_patient then Service.ACU_Assessment
       else Service.ED_Assessment]) ∧
    ((ed_patient_journey cfg rng wait now patient).2.2.head?.map
        Visit.requestTime = some now) ∧
    ((ed_patient_journey cfg rng wait now patient).2.2.Chain'
      (fun a b => b.requestTime = a.releaseTime)) ∧
    (∀ v ∈ (ed_patient_journey cfg rng wait now patient).2.2,
      (ed_patient_journey cfg rng wait now patient).2.1.get v.service =
        some (v.grantTime - v.requestTime) ∧
      v.grantTime = v.requestTime + wait v.service ∧
      v.duration = rng.expovariate (1 / service_times cfg v.service) ∧
      v.releaseTime = v.grantTime + v.duration) := by
  cases hacu : patient.is_acu_patient <;>
    refine ⟨?_, ?_, ?_, ?_⟩ <;>
      simp only [ed_patient_journey, process_services, hacu, SERVICES,
        Bool.false_eq_true, if_false, if_true, List.take, List.cons_append,
        List.nil_append, journey_loop, do_service, QueueTimes.set] <;>
    simp [List.chain'_cons, List.chain'_singleton, QueueTimes.get]

/-!
Construction-time validation, for the configuration claims.  The only
check at construction is the resource library's capacity check
(modelled from the spec, which specifies that capacity must be a
positive integer and otherwise a configuration error is fatal at
construction).  Nothing in class g or in ED_Model.__init__ validates
means, probabilities, durations or run counts.
-/

/-- ED_Model.__init__ as far as validation is concerned: building the
four resource pools fails exactly when some configured capacity in the
staffing list is not positive; no other configuration field is
examined at construction. -/
def ed_model_init (cfg : Config) : Except String Unit :=
  if (staffing cfg).all (fun c => decide (0 < c)) then Except.ok ()
  else Except.error "capacity must be positive"

/-- C8 counterexample: a configuration with branch probability 3/2
(outside the unit interval), zero mean triage time, zero simulation
duration and a negative run count, but positive capacities, constructs
without any fatal error, contradicting the claim that every such
configuration fails fatally at construction time. -/
theorem c8_counterexample_invalid_config_constructs :
    ed_model_init
        { g with prob_acu := 3/2, mean_triage := 0,
                 sim_duration := 0, number_of_runs := -1 } =
      Except.ok () ∧
    ¬ ((3 : ℚ)/2 ≤ 1) ∧ ¬ ((0 : ℚ) > 0) ∧ ¬ ((-1 : ℤ) > 0) := by
  refine ⟨rfl, by norm_num, by norm_num, by norm_num⟩

/-- C8 amended: construction fails fatally exactly when some
configured station capacity is non-positive (the resource library
rejects it); non-positive means, branch probabilities outside [0,1]
and non-positive run counts or durations are not detected at
construction (a zero mean only fails later, at the first sample, and
the others are silently accepted). -/
theorem c8_amended_only_capacity_checked (cfg : Config) :
    ed_model_init cfg = Except.ok () ↔ ∀ c ∈ staffing cfg, 0 < c := by
  unfold ed_model_init
  split_ifs with hall
  · simp only [List.all_eq_true, decide_eq_true_eq] at hall
    exact iff_of_true rfl hall
  · simp only [List.all_eq_true, decide_eq_true_eq] at hall
    exact iff_of_false (by simp) hall

end EDSim
